import Mathlib

/-!
Verification of the QGIS processing algorithm `OSMnxMunicipioSegments`
(`osmnx_municipio_segmentos.py`).

The script is sequential orchestration around external libraries (an HTTP
client, OSMnx, GeoPandas, the QGIS layer registry).  We embed it shallowly:
every external call is represented by an oracle value supplied in an
environment (`MunEnv`, `GlobalEnv`), and the algorithm itself becomes a pure
function producing an event trace (feedback messages, HTTP requests, layer
writes), the list of layers appended to the output GeoPackage, and either a
`QgsProcessingException` message or the returned result mapping.

String manipulation from the source (separator replacement, splitting,
digit filtering, `os.path.splitext`, `str.lower`) is re-implemented on
`List Char` with structural recursion so that every definition is
kernel-executable.
-/

namespace OsmnxMunicipio

/-! ## Generic string helpers (kernel-executable) -/

/-- Split a character list on a separator character; mirrors Python
`str.split(sep)` for a one-character separator (so `""` splits to `[""]`,
and a trailing separator yields a trailing empty part). -/
def splitOnChar (sep : Char) : List Char → List (List Char)
  | [] => [[]]
  | c :: rest =>
    let r := splitOnChar sep rest
    if c = sep then [] :: r
    else
      match r with
      | [] => [[c]]
      | t :: ts => (c :: t) :: ts

/-- Order-preserving deduplication with an explicit `seen` accumulator;
mirrors the `seen` set loop of `_parse_municipality_codes`. -/
def dedupAux (seen : List String) : List String → List String
  | [] => []
  | c :: rest =>
    if c ∈ seen then dedupAux seen rest
    else c :: dedupAux (c :: seen) rest

/-- Remove duplicates keeping the first occurrence of each element. -/
def dedupFirstSeen (l : List String) : List String :=
  dedupAux [] l

/-- Mirror of Python `sep.join(list)`. -/
def joinSep (sep : String) : List String → String
  | [] => ""
  | [s] => s
  | s :: rest => s ++ sep ++ joinSep sep rest

/-- Mirror of Python `str.lower` (ASCII case folding, as used on file
extensions in the script). -/
def lowerStr (s : String) : String :=
  String.mk (s.toList.map Char.toLower)

/-- Boolean test that `t` is a suffix of `s`. -/
def strEndsWith (s t : String) : Bool :=
  let a := s.toList
  let b := t.toList
  decide (b.length ≤ a.length) && a.drop (a.length - b.length) == b

/-- Boolean test that `t` occurs as a contiguous substring of `s`. -/
def strContains (s t : String) : Bool :=
  let a := s.toList
  let b := t.toList
  (List.range (a.length + 1)).any (fun i => (a.drop i).take b.length == b)

/-- Index of the last occurrence of `ch` in `cs`, if any. -/
def lastIndexOf (cs : List Char) (ch : Char) : Option Nat :=
  cs.enum.foldl (fun acc p => if p.2 = ch then some p.1 else acc) none

/-- Mirror of POSIX `os.path.splitext`: split off the extension at the last
dot, provided the dot lies after the last path separator and the base name
does not consist solely of leading dots. -/
def splitext (p : String) : String × String :=
  let cs := p.toList
  let sepIdx : Int :=
    match lastIndexOf cs '/' with
    | some i => (i : Int)
    | none => -1
  let dotIdx : Int :=
    match lastIndexOf cs '.' with
    | some i => (i : Int)
    | none => -1
  if sepIdx < dotIdx then
    let fnStart := (sepIdx + 1).toNat
    let d := dotIdx.toNat
    if ((cs.drop fnStart).take (d - fnStart)).any (fun c => c ≠ '.') then
      (String.mk (cs.take d), String.mk (cs.drop d))
    else
      (p, "")
  else
    (p, "")

/-! ## Data model: oracle values for the external collaborators -/

/-- Abstract handle for a shapely geometry (a boundary polygon, possibly
buffered). -/
structure Geom where
  gid : Nat
deriving DecidableEq, Repr

/-- Abstract result of `ox.geocode_to_gdf`: emptiness flag plus the first
geometry (`place_gdf.geometry.iloc[0]`, read only when non-empty). -/
structure GeoDataFrame where
  isEmpty : Bool
  firstGeom : Geom
deriving DecidableEq, Repr

/-- Abstract handle for an OSMnx graph. -/
structure OxGraph where
  gid : Nat
deriving DecidableEq, Repr

/-- Abstract edge GeoDataFrame: the CRS tag (subject to the pre-save
removal workaround) and its row count (used in a feedback message). -/
structure EdgeTable where
  crs : Option String
  nrows : Nat
deriving DecidableEq, Repr

/-- Innermost `UF` object of an IBGE municipality payload. -/
structure UFObj where
  sigla : Option String
deriving Repr

/-- `mesorregiao` object of an IBGE municipality payload. -/
structure MesoObj where
  UF : Option UFObj
deriving Repr

/-- `microrregiao` object of an IBGE municipality payload. -/
structure MicroObj where
  mesorregiao : Option MesoObj
deriving Repr

/-- Shape of the decoded IBGE JSON payload: either an object (with the
`nome` field and the nested `microrregiao.mesorregiao.UF.sigla` chain each
possibly missing) or a JSON array. -/
inductive IbgeJson where
  | jobj (nome : Option String) (microrregiao : Option MicroObj)
  | jlist (items : List IbgeJson)

/-- Outcome of `requests.get` on the IBGE endpoint: either the request
itself raised, or we got a response with a status code and a body that
either fails JSON decoding or yields a payload. -/
inductive RegistryResult where
  | connError (msg : String)
  | httpResp (status : Nat) (body : Except Unit IbgeJson)

/-- Oracle for every external call made during one municipality iteration. -/
structure MunEnv where
  registry : RegistryResult
  geocode : Except String GeoDataFrame
  bufPrimary : Except String Geom
  bufFallback : Except String Geom
  graphDl : Except String OxGraph
  projGraph : Except String OxGraph
  toGdfs : Except String EdgeTable
  setCrsFails : Bool
  setCrsErrMsg : String
  toFile : Except String Unit
  layerValid : Bool

/-- Run-wide oracle: module availability plus the per-code iteration
oracles. -/
structure GlobalEnv where
  osmnxAvailable : Bool
  geopandasAvailable : Bool
  perCode : String → MunEnv

/-- The algorithm's input parameters as read in `processAlgorithm`: the
free-text code field, the user-chosen output path, the network-type enum
index, and the buffer distance in metres (modelled as a rational). -/
structure AlgInput where
  munCodesStr : String
  outPathUser : String
  netTypeIndex : Int
  bufferM : Rat

/-- Observable effects of a run: feedback messages (`pushInfo` /
`reportError`), HTTP requests, OSMnx download calls, GeoPackage layer
writes and QGIS layer loads/registrations. -/
inductive Event where
  | info (msg : String)
  | warning (msg : String)
  | httpGet (url : String)
  | graphDownload (g : Geom) (networkType : String)
  | layerWrite (path : String) (layer : String) (crs : Option String)
  | layerLoad (uri : String) (displayName : String)
  | mapLayerAdded (displayName : String)
deriving DecidableEq, Repr

/-- Boolean success test for `Except`. -/
def isOkE {ε α : Type} : Except ε α → Bool
  | .ok _ => true
  | .error _ => false

/-! ## Messages raised or logged by the script (translated verbatim from
the Python format strings, with the placeholders substituted) -/

def noCodesMsg : String :=
  "Informe ao menos um código de município do IBGE."

def codesFoundMsg (codes : List String) : String :=
  "Códigos de município identificados: " ++ joinSep ", " codes

def lenWarnMsg (code : String) : String :=
  "Código IBGE geralmente possui 7 dígitos (alguns serviços usam 6). Código informado: " ++ code

def shpWarnMsg (base : String) : String :=
  "Foi selecionado Shapefile na saída, mas o algoritmo salvará em GeoPackage para permitir múltiplas camadas. O caminho será convertido para: '" ++ base ++ ".gpkg'."

def extAdjustMsg : String :=
  "Somente GeoPackage (*.gpkg) é plenamente compatível com múltiplas camadas. O caminho foi ajustado para extensão .gpkg."

def outPathMsg (outPath : String) : String :=
  "GeoPackage de saída: " ++ outPath

def osmnxMissingMsg : String :=
  "O módulo 'osmnx' não está disponível no Python do QGIS.\nInstale o OSMnx no ambiente Python que o QGIS utiliza antes de rodar este algoritmo."

def geopandasMissingMsg : String :=
  "O módulo 'geopandas' não está disponível no Python do QGIS.\nInstale o GeoPandas no ambiente Python que o QGIS utiliza."

def iterStartMsg (idx total : Nat) (code : String) : String :=
  "Processando município " ++ toString idx ++ "/" ++ toString total ++ " - código IBGE: " ++ code

def consultingMsg (url : String) : String :=
  "Consultando IBGE: " ++ url

def connErrMsg (m : String) : String :=
  "Erro ao conectar com a API do IBGE: " ++ m

def statusErrMsg (status : Nat) (code : String) : String :=
  "Erro ao consultar IBGE (status " ++ toString status ++ "). Verifique o código do município: " ++ code ++ "."

def jsonErrMsg : String :=
  "Resposta da API do IBGE não é um JSON válido."

def emptyListMsg (code : String) : String :=
  "Nenhum município retornado pelo IBGE para o código " ++ code ++ ". Verifique o código informado."

def shapeErrMsg (code det : String) : String :=
  "Não foi possível interpretar a resposta da API do IBGE para o código " ++ code ++ ". Estrutura inesperada: " ++ det

def identifiedMsg (nome sigla pq : String) : String :=
  "Município identificado: " ++ nome ++ " - " ++ sigla ++ " (consulta OSMnx: '" ++ pq ++ "')"

def netTypeMsg (nt : String) : String :=
  "Tipo de rede OSMnx selecionado: '" ++ nt ++ "'"

def bufferReqMsg (b : Rat) : String :=
  "Buffer solicitado: " ++ toString b ++ " m ao redor do limite municipal."

def noBufferMsg : String :=
  "Nenhum buffer adicional será aplicado (0 m)."

def geocodeErrMsg (pq m : String) : String :=
  "Erro ao obter o limite do município '" ++ pq ++ "' com OSMnx: " ++ m

def geocodeEmptyMsg (pq : String) : String :=
  "Não foi possível obter o limite do município '" ++ pq ++ "' com OSMnx."

def bufferWarnMsg (pq m : String) : String :=
  "Erro ao aplicar buffer para o município '" ++ pq ++ "'. Usando apenas o limite municipal sem buffer. Detalhes: " ++ m

def downloadingMsg : String :=
  "Baixando rede viária do OpenStreetMap com OSMnx (pode demorar alguns instantes)..."

def downloadErrMsg (pq m : String) : String :=
  "Erro ao baixar rede com OSMnx para '" ++ pq ++ "': " ++ m

def projectErrMsg (pq m : String) : String :=
  "Erro ao projetar a rede com OSMnx para '" ++ pq ++ "': " ++ m

def gdfsErrMsg (pq m : String) : String :=
  "Erro ao converter rede para GeoDataFrame em '" ++ pq ++ "': " ++ m

def edgesObtainedMsg (nome sigla : String) (n : Nat) : String :=
  "Segmentos (edges) obtidos para " ++ nome ++ " - " ++ sigla ++ ": " ++ toString n ++ ". Gravando em camada do GeoPackage..."

def crsRemoveMsg (crs : String) : String :=
  "Removendo CRS (" ++ crs ++ ") antes de salvar para evitar problemas de PROJ/CRS no ambiente. Defina o SRC manualmente após o carregamento, se necessário."

def crsFailMsg (m : String) : String :=
  "Não foi possível remover o CRS antes de salvar. Tentando salvar mesmo assim. Detalhes: " ++ m

def saveErrMsg (layer m : String) : String :=
  "Erro ao salvar camada '" ++ layer ++ "' no GeoPackage: " ++ m

def loadErrMsg (layer : String) : String :=
  "Camada '" ++ layer ++ "' foi criada no GeoPackage, mas não pôde ser carregada no QGIS."

def layerAddedMsg (vname outPath layer : String) : String :=
  "Camada '" ++ vname ++ "' adicionada ao projeto.\nGeoPackage: " ++ outPath ++ "\nLayer: " ++ layer

def summaryMsg (created : List String) : String :=
  "Camadas criadas no GeoPackage:\n  - " ++ joinSep "\n  - " created

/-! ## Embedded operations of the script -/

/-- Class attribute `NET_TYPE_OPTIONS`. -/
def NET_TYPE_OPTIONS : List String :=
  ["drive", "all", "walk", "bike", "drive_service"]

/-- Parameter-name constant `PARAM_OUTPUT`. -/
def PARAM_OUTPUT : String := "OUTPUT"

/-- Index clamping from `processAlgorithm`: an index below `0` or at least
`len(NET_TYPE_OPTIONS)` is replaced by `0`. -/
def clampNetTypeIndex (i : Int) : Int :=
  if i < 0 ∨ (NET_TYPE_OPTIONS.length : Int) ≤ i then 0 else i

/-- The network type string selected for an enum index
(`NET_TYPE_OPTIONS[net_type_index]` after clamping). -/
def networkTypeOf (i : Int) : String :=
  NET_TYPE_OPTIONS.getD (clampNetTypeIndex i).toNat ""

/-- Embedding of `_parse_municipality_codes`: replace `;`, newline and tab
by commas, split on commas, keep only the digits of each part, drop empty
parts, and deduplicate preserving first-seen order. -/
def parseMunicipalityCodes (s : String) : List String :=
  if s = "" then []
  else
    let cs := [';', '\n', '\t'].foldl
      (fun acc sep => acc.map (fun c => if c = sep then ',' else c)) s.toList
    let parts := splitOnChar ',' cs
    let codes := (parts.map (fun p => String.mk (p.filter Char.isDigit))).filter
      (fun code => code ≠ "")
    dedupFirstSeen codes

/-- Embedding of the output-path adjustment block: `os.path.splitext`, a
default `.gpkg` for a missing extension, a `reportError` plus override for
a `.shp` extension, and a `pushInfo` plus override for any other
non-`.gpkg` extension.  Returns the final path and the emitted events. -/
def normalizeOutPath (outPathUser : String) : String × List Event :=
  let be := splitext outPathUser
  let base := be.1
  let ext1 := if be.2 = "" then ".gpkg" else be.2
  let se : String × List Event :=
    if lowerStr ext1 = ".shp" then (".gpkg", [Event.warning (shpWarnMsg base)])
    else (ext1, [])
  let ge : String × List Event :=
    if lowerStr se.1 ≠ ".gpkg" then (".gpkg", [Event.info extAdjustMsg])
    else (se.1, [])
  (base ++ ge.1, se.2 ++ ge.2)

/-- The templated IBGE endpoint URL for a municipality code. -/
def ibgeUrl (code : String) : String :=
  "https://servicodados.ibge.gov.br/api/v1/localidades/municipios/" ++ code

/-- Field extraction `data["nome"]` and
`data["microrregiao"]["mesorregiao"]["UF"]["sigla"]`; the error value is
the text of the Python exception that the corresponding access raises. -/
def readFields : IbgeJson → Except String (String × String)
  | .jlist _ => .error "list indices must be integers or slices, not str"
  | .jobj nome? micro? =>
    match nome? with
    | none => .error "'nome'"
    | some nome =>
      match micro? with
      | none => .error "'microrregiao'"
      | some micro =>
        match micro.mesorregiao with
        | none => .error "'mesorregiao'"
        | some meso =>
          match meso.UF with
          | none => .error "'UF'"
          | some uf =>
            match uf.sigla with
            | none => .error "'sigla'"
            | some sigla => .ok (nome, sigla)

/-- Field extraction wrapped in the script's `try/except`, which turns the
exception into a `QgsProcessingException` message naming the code. -/
def interpretObj (code : String) (d : IbgeJson) : Except String (String × String) :=
  match readFields d with
  | .error det => .error (shapeErrMsg code det)
  | .ok v => .ok v

/-- Embedding of the IBGE lookup block for one code: connection errors,
the non-200 status check, JSON decoding, reduction of a list-shaped
payload to its first element (empty list fatal), and field extraction. -/
def registryStep (code : String) (r : RegistryResult) : Except String (String × String) :=
  match r with
  | .connError m => .error (connErrMsg m)
  | .httpResp status body =>
    if status ≠ 200 then .error (statusErrMsg status code)
    else
      match body with
      | .error _ => .error jsonErrMsg
      | .ok data =>
        match data with
        | .jlist [] => .error (emptyListMsg code)
        | .jlist (d :: _) => interpretObj code d
        | .jobj nome? micro? => interpretObj code (.jobj nome? micro?)

/-- The OSMnx place query `f"{nome_mun}, {uf_sigla}, Brasil"`. -/
def placeQueryStr (nome sigla : String) : String :=
  nome ++ ", " ++ sigla ++ ", Brasil"

/-- Outcome of the buffer computation: the `project_gdf` path, falling
back to the Web-Mercator path when the former raises. -/
def bufResult (e : MunEnv) : Except String Geom :=
  match e.bufPrimary with
  | .ok g => .ok g
  | .error _ => e.bufFallback

/-- The optional buffer block: executed only for a positive buffer
distance; an exception is caught, reported as a non-fatal error and the
unbuffered geometry `geom0` is kept. -/
def bufferStep (e : MunEnv) (geom0 : Geom) (pq : String) (b : Rat) : Geom × List Event :=
  if 0 < b then
    match bufResult e with
    | .ok g => (g, [])
    | .error m => (geom0, [Event.warning (bufferWarnMsg pq m)])
  else (geom0, [])

/-- The CRS-removal workaround block: when the edge table has a CRS tag,
log, then try `set_crs(None)`; if that raises, report a non-fatal error
and keep the table (and its CRS tag) unchanged. -/
def crsStep (e : MunEnv) (ed : EdgeTable) : EdgeTable × List Event :=
  match ed.crs with
  | none => (ed, [])
  | some c =>
    if e.setCrsFails then
      (ed, [Event.info (crsRemoveMsg c), Event.warning (crsFailMsg e.setCrsErrMsg)])
    else
      ({ ed with crs := none }, [Event.info (crsRemoveMsg c)])

/-- One iteration of the municipality loop: IBGE lookup, boundary
geocoding, optional buffer, network download, projection, edge-table
conversion, CRS removal, GeoPackage write, and QGIS layer load.  Returns
the event trace, the layer name appended to `created_layers` (when the
write succeeded), and the iteration outcome. -/
def processOne (idx total : Nat) (code : String) (e : MunEnv)
    (outPath networkType : String) (bufferM : Rat) :
    List Event × Option String × Except String Unit :=
  let url := ibgeUrl code
  let t1 : List Event :=
    [Event.info (iterStartMsg idx total code), Event.info (consultingMsg url),
     Event.httpGet url]
  match registryStep code e.registry with
  | .error m => (t1, none, .error m)
  | .ok ns =>
    let nome := ns.1
    let sigla := ns.2
    let pq := placeQueryStr nome sigla
    let t3 := t1 ++
      [Event.info (identifiedMsg nome sigla pq), Event.info (netTypeMsg networkType)] ++
      (if 0 < bufferM then [Event.info (bufferReqMsg bufferM)]
       else [Event.info noBufferMsg])
    match e.geocode with
    | .error m => (t3, none, .error (geocodeErrMsg pq m))
    | .ok gdf =>
      if gdf.isEmpty then (t3, none, .error (geocodeEmptyMsg pq))
      else
        let gw := bufferStep e gdf.firstGeom pq bufferM
        let t5 := t3 ++ gw.2 ++
          [Event.info downloadingMsg, Event.graphDownload gw.1 networkType]
        match e.graphDl with
        | .error m => (t5, none, .error (downloadErrMsg pq m))
        | .ok _ =>
          match e.projGraph with
          | .error m => (t5, none, .error (projectErrMsg pq m))
          | .ok _ =>
            match e.toGdfs with
            | .error m => (t5, none, .error (gdfsErrMsg pq m))
            | .ok edges0 =>
              let t6 := t5 ++ [Event.info (edgesObtainedMsg nome sigla edges0.nrows)]
              let ce := crsStep e edges0
              let t7 := t6 ++ ce.2
              let layerName := "osm_segments_" ++ code
              match e.toFile with
              | .error m => (t7, none, .error (saveErrMsg layerName m))
              | .ok _ =>
                let t8 := t7 ++ [Event.layerWrite outPath layerName ce.1.crs]
                let uri := outPath ++ "|layername=" ++ layerName
                let vname0 := "OSMnx_" ++ nome ++ "_" ++ sigla ++ "_" ++ networkType ++ "_segments"
                let vname :=
                  if 0 < bufferM then vname0 ++ "_buf" ++ toString bufferM.floor ++ "m"
                  else vname0
                let t9 := t8 ++ [Event.layerLoad uri vname]
                if e.layerValid = false then
                  (t9, some layerName, .error (loadErrMsg layerName))
                else
                  (t9 ++ [Event.mapLayerAdded vname,
                          Event.info (layerAddedMsg vname outPath layerName)],
                   some layerName, .ok ())

/-- The `for idx, mun_code in enumerate(codes, start=1)` loop: a raised
exception aborts the remaining iterations; each successful write appends
its layer name to `created_layers`. -/
def runLoop (env : String → MunEnv) (outPath networkType : String) (bufferM : Rat)
    (total : Nat) (idx : Nat) :
    List String → List Event × List String × Except String Unit
  | [] => ([], [], .ok ())
  | c :: rest =>
    let r := processOne idx total c (env c) outPath networkType bufferM
    match r.2.2 with
    | .error m => (r.1, r.2.1.toList, .error m)
    | .ok _ =>
      let r2 := runLoop env outPath networkType bufferM total (idx + 1) rest
      (r.1 ++ r2.1, r.2.1.toList ++ r2.2.1, r2.2.2)

/-- The feedback emitted between code parsing and the loop: the
identified-codes message, the digit-length warnings, the output-path
adjustment events and the final output-path message. -/
def preTrace (inp : AlgInput) (codes : List String) : List Event :=
  [Event.info (codesFoundMsg codes)] ++
  (codes.filter (fun c => !(c.length == 6 || c.length == 7))).map
    (fun c => Event.warning (lenWarnMsg c)) ++
  (normalizeOutPath inp.outPathUser).2 ++
  [Event.info (outPathMsg (normalizeOutPath inp.outPathUser).1)]

/-- The summary message pushed after the loop when at least one layer was
created. -/
def summaryEvents (created : List String) : List Event :=
  if created = [] then [] else [Event.info (summaryMsg created)]

/-- Full embedding of `processAlgorithm`: parameter handling, network-type
clamping, code parsing (raising when no code was given), output-path
normalization, the osmnx/geopandas import checks, the municipality loop,
and the returned `{self.PARAM_OUTPUT: out_path}` mapping. -/
def processAlgorithm (inp : AlgInput) (genv : GlobalEnv) :
    List Event × List String × Except String (List (String × String)) :=
  let networkType := networkTypeOf inp.netTypeIndex
  let codes := parseMunicipalityCodes inp.munCodesStr
  if codes = [] then ([], [], .error noCodesMsg)
  else
    let outPath := (normalizeOutPath inp.outPathUser).1
    let pre := preTrace inp codes
    if genv.osmnxAvailable = false then (pre, [], .error osmnxMissingMsg)
    else if genv.geopandasAvailable = false then (pre, [], .error geopandasMissingMsg)
    else
      let lr := runLoop genv.perCode outPath networkType inp.bufferM codes.length 1 codes
      match lr.2.2 with
      | .error m => (pre ++ lr.1, lr.2.1, .error m)
      | .ok _ =>
        (pre ++ lr.1 ++ summaryEvents lr.2.1, lr.2.1, .ok [(PARAM_OUTPUT, outPath)])

/-! ## Success predicates used by the run-level theorems -/

/-- Whether the IBGE lookup succeeds (independent of the code, which only
enters the error messages). -/
def registryOk (r : RegistryResult) : Bool :=
  match r with
  | .connError _ => false
  | .httpResp status body =>
    (status == 200) &&
    (match body with
     | .error _ => false
     | .ok data =>
       match data with
       | .jlist [] => false
       | .jlist (d :: _) => isOkE (readFields d)
       | .jobj nome? micro? => isOkE (readFields (.jobj nome? micro?)))

/-- Whether one municipality iteration runs to completion: every fatal
stage (registry lookup, boundary fetch, network download, reprojection,
edge-table conversion, layer write, layer load) succeeds.  The buffer and
CRS-removal steps do not appear: their failures are non-fatal. -/
def munOk (e : MunEnv) : Bool :=
  registryOk e.registry &&
  (match e.geocode with
   | .error _ => false
   | .ok gdf => !gdf.isEmpty) &&
  isOkE e.graphDl && isOkE e.projGraph && isOkE e.toGdfs &&
  isOkE e.toFile && e.layerValid

/-- The GeoPackage layer name generated for a municipality code. -/
def layerNameOf (code : String) : String :=
  "osm_segments_" ++ code

/-! ## Sample oracle environments (used by the closed witness theorems) -/

/-- A well-formed IBGE payload for Porto Alegre. -/
def okJson : IbgeJson :=
  .jobj (some "Porto Alegre") (some ⟨some ⟨some ⟨some "RS"⟩⟩⟩)

/-- An iteration oracle in which every external call succeeds. -/
def okMunEnv : MunEnv where
  registry := .httpResp 200 (.ok okJson)
  geocode := .ok { isEmpty := false, firstGeom := ⟨1⟩ }
  bufPrimary := .ok ⟨2⟩
  bufFallback := .ok ⟨3⟩
  graphDl := .ok ⟨10⟩
  projGraph := .ok ⟨11⟩
  toGdfs := .ok { crs := some "EPSG:31982", nrows := 100 }
  setCrsFails := false
  setCrsErrMsg := ""
  toFile := .ok ()
  layerValid := true

/-- A run oracle in which every iteration succeeds. -/
def okGlobalEnv : GlobalEnv where
  osmnxAvailable := true
  geopandasAvailable := true
  perCode := fun _ => okMunEnv

/-- An iteration oracle whose IBGE lookup answers with status 404. -/
def badMunEnv : MunEnv :=
  { okMunEnv with registry := .httpResp 404 (.error ()) }

/-- A run oracle in which the lookup for code 3550308 fails with a 404 and
every other iteration succeeds. -/
def mixedGlobalEnv : GlobalEnv :=
  { okGlobalEnv with perCode := fun c => if c = "3550308" then badMunEnv else okMunEnv }

/-- An iteration oracle in which both buffer computations raise and every
fatal stage succeeds. -/
def bufFailEnv : MunEnv :=
  { okMunEnv with bufPrimary := .error "proj", bufFallback := .error "mercator" }

/-- An iteration oracle in which `set_crs` raises and every fatal stage
succeeds. -/
def crsFailEnv : MunEnv :=
  { okMunEnv with setCrsFails := true, setCrsErrMsg := "PROJ error" }

/-! ## String helper lemmas -/

theorem toList_append (a b : String) : (a ++ b).toList = a.toList ++ b.toList := by
  cases a
  cases b
  rfl

theorem strContains_self_append (b c : String) : strContains (b ++ c) b = true := by
  unfold strContains
  rw [List.any_eq_true]
  refine ⟨0, List.mem_range.mpr (Nat.succ_pos _), ?_⟩
  rw [toList_append, List.drop_zero, List.take_left]
  simp

theorem strContains_append_left (a s b : String) (h : strContains s b = true) :
    strContains (a ++ s) b = true := by
  unfold strContains at h ⊢
  rw [List.any_eq_true] at h ⊢
  obtain ⟨i, hi, hb⟩ := h
  refine ⟨a.toList.length + i, ?_, ?_⟩
  · rw [List.mem_range] at hi ⊢
    rw [toList_append, List.length_append]
    omega
  · rw [toList_append, List.drop_append]
    exact hb

theorem strContains_refl (b : String) : strContains b b = true := by
  unfold strContains
  rw [List.any_eq_true]
  refine ⟨0, List.mem_range.mpr (Nat.succ_pos _), ?_⟩
  rw [List.drop_zero, List.take_length]
  simp

theorem strContains_append_right (s c b : String) (h : strContains s b = true) :
    strContains (s ++ c) b = true := by
  unfold strContains at h ⊢
  rw [List.any_eq_true] at h ⊢
  obtain ⟨i, hi, hb⟩ := h
  rw [List.mem_range] at hi
  have hlen : b.toList.length ≤ (s.toList.drop i).length := by
    have := congrArg List.length (eq_of_beq hb)
    rw [List.length_take] at this
    omega
  refine ⟨i, ?_, ?_⟩
  · rw [List.mem_range, toList_append, List.length_append]
    omega
  · have hile : i ≤ s.toList.length := by omega
    rw [toList_append, List.drop_append_of_le_length hile,
        List.take_append_of_le_length hlen]
    exact hb

/-! ## Stage lemmas about the registry lookup -/

theorem isOkE_interpretObj0 (code : String) (d : IbgeJson) :
    isOkE (interpretObj code d) = isOkE (readFields d) := by
  unfold interpretObj
  cases h : readFields d <;> simp [isOkE]

theorem registryStep_isOk (code : String) (r : RegistryResult) :
    isOkE (registryStep code r) = registryOk r := by
  cases r with
  | connError m => rfl
  | httpResp st body =>
    by_cases hst : st = 200
    · subst hst
      cases body with
      | error u => rfl
      | ok data =>
        cases data with
        | jobj nome? micro? =>
          simp [registryStep, registryOk, isOkE_interpretObj0]
        | jlist items =>
          cases items with
          | nil => rfl
          | cons d rest => simp [registryStep, registryOk, isOkE_interpretObj0]
    · simp [registryStep, registryOk, hst, isOkE]

theorem registryStep_ok_of (code : String) (r : RegistryResult)
    (h : registryOk r = true) : ∃ v, registryStep code r = Except.ok v := by
  have hok : isOkE (registryStep code r) = true := by rw [registryStep_isOk, h]
  cases hr : registryStep code r with
  | error m => rw [hr] at hok; simp [isOkE] at hok
  | ok v => exact ⟨v, rfl⟩

theorem registryOk_of_step (code : String) (r : RegistryResult) (v : String × String)
    (h : registryStep code r = Except.ok v) : registryOk r = true := by
  rw [← registryStep_isOk code, h]
  rfl

/-! ## Stage lemmas about one municipality iteration -/

theorem processOne_ok (idx total : Nat) (code : String) (e : MunEnv)
    (p nt : String) (b : Rat) (h : munOk e = true) :
    (processOne idx total code e p nt b).2 = (some (layerNameOf code), Except.ok ()) := by
  simp only [munOk, Bool.and_eq_true] at h
  obtain ⟨⟨⟨⟨⟨⟨hreg, hgeo⟩, hdl⟩, hpj⟩, htg⟩, htf⟩, hlv⟩ := h
  obtain ⟨v, hv⟩ := registryStep_ok_of code e.registry hreg
  rcases hg : e.geocode with m | gdf
  · rw [hg] at hgeo; simp at hgeo
  · rw [hg] at hgeo
    simp only [Bool.not_eq_true'] at hgeo
    rcases hdl' : e.graphDl with m | g1
    · rw [hdl'] at hdl; simp [isOkE] at hdl
    · rcases hpj' : e.projGraph with m | g2
      · rw [hpj'] at hpj; simp [isOkE] at hpj
      · rcases htg' : e.toGdfs with m | ed
        · rw [htg'] at htg; simp [isOkE] at htg
        · rcases htf' : e.toFile with m | uu
          · rw [htf'] at htf; simp [isOkE] at htf
          · cases uu
            simp [processOne, hv, hg, hgeo, hdl', hpj', htg', htf', hlv, layerNameOf]

theorem munOk_of_processOne_ok (idx total : Nat) (code : String) (e : MunEnv)
    (p nt : String) (b : Rat)
    (h : (processOne idx total code e p nt b).2.2 = Except.ok ()) :
    munOk e = true := by
  rcases hreg : registryStep code e.registry with m | ns
  · simp [processOne, hreg] at h
  · rcases hg : e.geocode with m | gdf
    · simp [processOne, hreg, hg] at h
    · by_cases hemp : gdf.isEmpty = true
      · simp [processOne, hreg, hg, hemp] at h
      · simp only [Bool.not_eq_true] at hemp
        rcases hdl : e.graphDl with m | g1
        · simp [processOne, hreg, hg, hemp, hdl] at h
        · rcases hpj : e.projGraph with m | g2
          · simp [processOne, hreg, hg, hemp, hdl, hpj] at h
          · rcases htg : e.toGdfs with m | ed
            · simp [processOne, hreg, hg, hemp, hdl, hpj, htg] at h
            · rcases htf : e.toFile with m | uu
              · simp [processOne, hreg, hg, hemp, hdl, hpj, htg, htf] at h
              · by_cases hlv : e.layerValid = false
                · simp [processOne, hreg, hg, hemp, hdl, hpj, htg, htf, hlv] at h
                · simp only [Bool.not_eq_false] at hlv
                  have hrok := registryOk_of_step code e.registry ns hreg
                  simp [munOk, hrok, hg, hemp, hdl, hpj, htg, htf, hlv, isOkE]

theorem processOne_created (idx total : Nat) (code : String) (e : MunEnv)
    (p nt : String) (b : Rat) :
    (processOne idx total code e p nt b).2.1 = none ∨
    (processOne idx total code e p nt b).2.1 = some (layerNameOf code) := by
  simp only [processOne, layerNameOf]
  repeat' split
  all_goals simp

theorem bufferStep_no_httpGet (e : MunEnv) (g0 : Geom) (pq : String) (b : Rat)
    (u : String) : Event.httpGet u ∉ (bufferStep e g0 pq b).2 := by
  simp only [bufferStep]
  repeat' split
  all_goals simp

theorem crsStep_no_httpGet (e : MunEnv) (ed : EdgeTable) (u : String) :
    Event.httpGet u ∉ (crsStep e ed).2 := by
  simp only [crsStep]
  repeat' split
  all_goals simp

theorem processOne_httpGet (idx total : Nat) (code : String) (e : MunEnv)
    (p nt : String) (b : Rat) (u : String)
    (h : Event.httpGet u ∈ (processOne idx total code e p nt b).1) :
    u = ibgeUrl code := by
  unfold processOne at h
  repeat' split at h
  all_goals
    simp [bufferStep_no_httpGet, crsStep_no_httpGet] at h
  all_goals exact h

theorem processOne_fail (idx total : Nat) (code : String) (e : MunEnv)
    (p nt : String) (b : Rat) (h : munOk e = false) :
    ∃ m, (processOne idx total code e p nt b).2.2 = Except.error m := by
  rcases hres : (processOne idx total code e p nt b).2.2 with m | uu
  · exact ⟨m, rfl⟩
  · cases uu
    rw [munOk_of_processOne_ok idx total code e p nt b hres] at h
    exact absurd h (by simp)

/-! ## Lemmas about the municipality loop -/

theorem runLoop_all_ok (env : String → MunEnv) (p nt : String) (b : Rat) (total : Nat) :
    ∀ (cs : List String) (idx : Nat), (∀ c ∈ cs, munOk (env c) = true) →
    (runLoop env p nt b total idx cs).2 = (cs.map layerNameOf, Except.ok ()) := by
  intro cs
  induction cs with
  | nil => intro idx _; rfl
  | cons c rest ih =>
    intro idx h
    have hc := h c (List.mem_cons_self c rest)
    have hp := processOne_ok idx total c (env c) p nt b hc
    have h22 : (processOne idx total c (env c) p nt b).2.2 = Except.ok () := by rw [hp]
    have h21 : (processOne idx total c (env c) p nt b).2.1 = some (layerNameOf c) := by
      rw [hp]
    have hrest := ih (idx + 1) (fun x hx => h x (List.mem_cons_of_mem _ hx))
    have hr1 : (runLoop env p nt b total (idx + 1) rest).2.1 = rest.map layerNameOf := by
      rw [hrest]
    have hr2 : (runLoop env p nt b total (idx + 1) rest).2.2 = Except.ok () := by
      rw [hrest]
    simp [runLoop, h22, h21, hr1, hr2]

theorem runLoop_halt (env : String → MunEnv) (p nt : String) (b : Rat) (total : Nat) :
    ∀ (cs : List String) (i idx : Nat) (hi : i < cs.length),
    (∀ j (hj : j < i), munOk (env (cs.get ⟨j, hj.trans hi⟩)) = true) →
    munOk (env (cs.get ⟨i, hi⟩)) = false →
    runLoop env p nt b total idx cs = runLoop env p nt b total idx (cs.take (i + 1)) := by
  intro cs
  induction cs with
  | nil => intro i idx hi _ _; exact absurd hi (by simp)
  | cons c rest ih =>
    intro i idx hi hok hfail
    cases i with
    | zero =>
      have hfail' : munOk (env c) = false := hfail
      obtain ⟨m, hm⟩ := processOne_fail idx total c (env c) p nt b hfail'
      simp [runLoop, hm, List.take_succ_cons]
    | succ i' =>
      have hok0 : munOk (env c) = true := hok 0 (Nat.succ_pos i')
      have hp := processOne_ok idx total c (env c) p nt b hok0
      have h22 : (processOne idx total c (env c) p nt b).2.2 = Except.ok () := by rw [hp]
      have hi' : i' < rest.length := by simpa using hi
      have ihr := ih i' (idx + 1) hi'
        (fun j hj => hok (j + 1) (Nat.succ_lt_succ hj)) hfail
      simp only [List.take_succ_cons, runLoop, h22, ihr]

theorem runLoop_append_ok (env : String → MunEnv) (p nt : String) (b : Rat) (total : Nat) :
    ∀ (l₁ l₂ : List String) (idx : Nat), (∀ c ∈ l₁, munOk (env c) = true) →
    runLoop env p nt b total idx (l₁ ++ l₂) =
      ((runLoop env p nt b total idx l₁).1 ++
         (runLoop env p nt b total (idx + l₁.length) l₂).1,
       l₁.map layerNameOf ++ (runLoop env p nt b total (idx + l₁.length) l₂).2.1,
       (runLoop env p nt b total (idx + l₁.length) l₂).2.2) := by
  intro l₁
  induction l₁ with
  | nil => intro l₂ idx _; simp [runLoop]
  | cons c rest ih =>
    intro l₂ idx h
    have hc := h c (List.mem_cons_self c rest)
    have hp := processOne_ok idx total c (env c) p nt b hc
    have h22 : (processOne idx total c (env c) p nt b).2.2 = Except.ok () := by rw [hp]
    have h21 : (processOne idx total c (env c) p nt b).2.1 = some (layerNameOf c) := by
      rw [hp]
    have ihr := ih l₂ (idx + 1) (fun x hx => h x (List.mem_cons_of_mem _ hx))
    have hidx : idx + 1 + rest.length = idx + (rest.length + 1) := by omega
    simp only [List.cons_append, runLoop, h22, h21, Option.toList_some, List.append_eq,
      List.length_cons, List.map_cons, hidx, ihr, List.append_assoc, List.nil_append]

theorem runLoop_httpGet (env : String → MunEnv) (p nt : String) (b : Rat) (total : Nat) :
    ∀ (cs : List String) (idx : Nat) (u : String),
    Event.httpGet u ∈ (runLoop env p nt b total idx cs).1 → ∃ c ∈ cs, u = ibgeUrl c := by
  intro cs
  induction cs with
  | nil => intro idx u h; simp [runLoop] at h
  | cons c rest ih =>
    intro idx u h
    rcases hres : (processOne idx total c (env c) p nt b).2.2 with m | uu
    · rw [show (runLoop env p nt b total idx (c :: rest)).1 =
          (processOne idx total c (env c) p nt b).1 by simp [runLoop, hres]] at h
      exact ⟨c, List.mem_cons_self c rest, processOne_httpGet idx total c (env c) p nt b u h⟩
    · cases uu
      rw [show (runLoop env p nt b total idx (c :: rest)).1 =
          (processOne idx total c (env c) p nt b).1 ++
            (runLoop env p nt b total (idx + 1) rest).1 by simp [runLoop, hres]] at h
      rcases List.mem_append.mp h with h1 | h2
      · exact ⟨c, List.mem_cons_self c rest, processOne_httpGet idx total c (env c) p nt b u h1⟩
      · obtain ⟨x, hx, hu⟩ := ih (idx + 1) u h2
        exact ⟨x, List.mem_cons_of_mem _ hx, hu⟩

/-! ## Lemmas about the pre-loop feedback and the parsed code list -/

theorem normalizeOutPath_no_httpGet (q : String) (u : String) :
    Event.httpGet u ∉ (normalizeOutPath q).2 := by
  simp only [normalizeOutPath]
  repeat' split
  all_goals simp

theorem preTrace_no_httpGet (inp : AlgInput) (codes : List String) (u : String) :
    Event.httpGet u ∉ preTrace inp codes := by
  simp only [preTrace, List.append_assoc, List.mem_append]
  push_neg
  refine ⟨by simp, by simp, normalizeOutPath_no_httpGet _ u, by simp⟩

theorem dedupAux_spec (l : List String) :
    ∀ seen, (dedupAux seen l).Nodup ∧ ∀ x ∈ dedupAux seen l, x ∉ seen := by
  induction l with
  | nil => intro seen; simp [dedupAux]
  | cons c rest ih =>
    intro seen
    unfold dedupAux
    by_cases hc : c ∈ seen
    · simp only [if_pos hc]
      exact ih seen
    · simp only [if_neg hc]
      obtain ⟨hnd, hns⟩ := ih (c :: seen)
      refine ⟨List.nodup_cons.mpr ⟨fun hmem => hns c hmem (List.mem_cons_self c seen), hnd⟩, ?_⟩
      intro x hx
      rcases List.mem_cons.mp hx with rfl | hx2
      · exact hc
      · intro hxs
        exact hns x hx2 (List.mem_cons_of_mem _ hxs)

theorem parse_nodup (s : String) : (parseMunicipalityCodes s).Nodup := by
  unfold parseMunicipalityCodes
  split
  · simp
  · exact (dedupAux_spec _ []).1

theorem ibgeUrl_inj (a b : String) (h : ibgeUrl a = ibgeUrl b) : a = b := by
  unfold ibgeUrl at h
  have h2 := congrArg String.toList h
  rw [toList_append, toList_append] at h2
  have h3 := List.append_cancel_left h2
  cases a with
  | mk la =>
    cases b with
    | mk lb => exact congrArg String.mk h3

theorem get_not_mem_take (l : List String) (hnd : l.Nodup) (n j : Nat)
    (hj : j < l.length) (hnj : n ≤ j) : l.get ⟨j, hj⟩ ∉ l.take n := by
  intro hmem
  have hnd2 : (l.take n ++ l.drop n).Nodup := by
    rw [List.take_append_drop]
    exact hnd
  rw [List.nodup_append] at hnd2
  obtain ⟨-, -, hdisj⟩ := hnd2
  have hlen : j - n < (l.drop n).length := by
    rw [List.length_drop]
    omega
  have h1 : l[j] = (l.drop n).get ⟨j - n, hlen⟩ := by
    have h0 := List.getElem_drop' l (show n + (j - n) < l.length by omega)
    rw [List.get_eq_getElem]
    convert h0 using 2
    omega
  have h2 : l.get ⟨j, hj⟩ = l[j] := List.get_eq_getElem l ⟨j, hj⟩
  have hdrop : l.get ⟨j, hj⟩ ∈ l.drop n := by
    rw [h2, h1]
    exact List.get_mem _ _ _
  exact hdisj hmem hdrop

/-! ## Claim C1 (status: confirmed) -/

/-- C1: for a run over the parsed (hence distinct) municipality codes in
which no fatal error occurs, the output package receives exactly one layer
per code, named `osm_segments_<code>`, appended in input order, and the
returned result maps the fixed `OUTPUT` key to the normalized output
path. -/
theorem claim_C1 (inp : AlgInput) (genv : GlobalEnv) (codes : List String)
    (hc : codes = parseMunicipalityCodes inp.munCodesStr)
    (hne : codes ≠ [])
    (hox : genv.osmnxAvailable = true)
    (hgpd : genv.geopandasAvailable = true)
    (hok : ∀ c ∈ codes, munOk (genv.perCode c) = true) :
    (processAlgorithm inp genv).2.1 = codes.map layerNameOf ∧
    (processAlgorithm inp genv).2.1.length = codes.length ∧
    (processAlgorithm inp genv).2.2 =
      Except.ok [(PARAM_OUTPUT, (normalizeOutPath inp.outPathUser).1)] := by
  have hloop := runLoop_all_ok genv.perCode (normalizeOutPath inp.outPathUser).1
    (networkTypeOf inp.netTypeIndex) inp.bufferM codes.length codes 1 hok
  have h1 : (runLoop genv.perCode (normalizeOutPath inp.outPathUser).1
      (networkTypeOf inp.netTypeIndex) inp.bufferM codes.length 1 codes).2.1 =
      codes.map layerNameOf := by rw [hloop]
  have h2 : (runLoop genv.perCode (normalizeOutPath inp.outPathUser).1
      (networkTypeOf inp.netTypeIndex) inp.bufferM codes.length 1 codes).2.2 =
      Except.ok () := by rw [hloop]
  refine ⟨?_, ?_, ?_⟩ <;>
    simp [processAlgorithm, ← hc, hne, hox, hgpd, h1, h2]

/-- C1 witness: two codes, an all-success oracle, evaluated concretely. -/
theorem claim_C1_witness :
    (processAlgorithm ⟨"4305108, 3550308", "saida.gpkg", 0, 0⟩ okGlobalEnv).2.1 =
      (parseMunicipalityCodes "4305108, 3550308").map layerNameOf ∧
    (processAlgorithm ⟨"4305108, 3550308", "saida.gpkg", 0, 0⟩ okGlobalEnv).2.1.length =
      (parseMunicipalityCodes "4305108, 3550308").length ∧
    (processAlgorithm ⟨"4305108, 3550308", "saida.gpkg", 0, 0⟩ okGlobalEnv).2.2 =
      Except.ok [(PARAM_OUTPUT, (normalizeOutPath "saida.gpkg").1)] :=
  claim_C1 ⟨"4305108, 3550308", "saida.gpkg", 0, 0⟩ okGlobalEnv
    (parseMunicipalityCodes "4305108, 3550308") rfl (by decide) rfl rfl (by decide)

/-! ## Claim C3 (status: confirmed) -/

/-- C3: if every iteration before index `i` succeeds and the iteration for
the code at index `i` fails fatally at any stage, the whole run raises: the
result is an error, the output package holds exactly the layers of the
earlier codes in order (plus at most the failing code's own layer, when the
failure happened after its write), and no registry request is ever made for
any code after index `i`. -/
theorem claim_C3 (inp : AlgInput) (genv : GlobalEnv) (codes : List String)
    (hc : codes = parseMunicipalityCodes inp.munCodesStr)
    (hox : genv.osmnxAvailable = true)
    (hgpd : genv.geopandasAvailable = true)
    (i : Nat) (hi : i < codes.length)
    (hok : ∀ j (hj : j < i), munOk (genv.perCode (codes.get ⟨j, hj.trans hi⟩)) = true)
    (hfail : munOk (genv.perCode (codes.get ⟨i, hi⟩)) = false) :
    (∃ m, (processAlgorithm inp genv).2.2 = Except.error m) ∧
    ((processAlgorithm inp genv).2.1 = (codes.take i).map layerNameOf ∨
     (processAlgorithm inp genv).2.1 =
       (codes.take i).map layerNameOf ++ [layerNameOf (codes.get ⟨i, hi⟩)]) ∧
    (∀ j (hj : j < codes.length), i < j →
      Event.httpGet (ibgeUrl (codes.get ⟨j, hj⟩)) ∉ (processAlgorithm inp genv).1) := by
  have hne : codes ≠ [] := by
    intro h0
    rw [h0] at hi
    exact absurd hi (by simp)
  have hnd : codes.Nodup := by
    rw [hc]
    exact parse_nodup inp.munCodesStr
  obtain ⟨m, hm⟩ := processOne_fail (1 + i) codes.length (codes.get ⟨i, hi⟩)
    (genv.perCode (codes.get ⟨i, hi⟩)) (normalizeOutPath inp.outPathUser).1
    (networkTypeOf inp.netTypeIndex) inp.bufferM hfail
  have hhalt := runLoop_halt genv.perCode (normalizeOutPath inp.outPathUser).1
    (networkTypeOf inp.netTypeIndex) inp.bufferM codes.length codes i 1 hi hok hfail
  have htake : codes.take (i + 1) = codes.take i ++ [codes.get ⟨i, hi⟩] := by
    rw [List.take_succ, List.getElem?_eq_getElem hi]
    simp [List.get_eq_getElem]
  have hallok : ∀ c ∈ codes.take i, munOk (genv.perCode c) = true := by
    intro c hmem
    obtain ⟨k, hget⟩ := List.mem_iff_get.mp hmem
    have hki : (k : Nat) < i := lt_of_lt_of_le k.isLt (List.length_take_le i codes)
    have hkc : (k : Nat) < codes.length := by omega
    have hgt : (codes.take i).get k = codes.get ⟨(k : Nat), hkc⟩ := by
      rw [List.get_eq_getElem, List.get_eq_getElem, List.getElem_take]
    rw [← hget, hgt]
    exact hok k hki
  have happ := runLoop_append_ok genv.perCode (normalizeOutPath inp.outPathUser).1
    (networkTypeOf inp.netTypeIndex) inp.bufferM codes.length (codes.take i)
    [codes.get ⟨i, hi⟩] 1 hallok
  have hlen : (codes.take i).length = i := by
    rw [List.length_take]
    omega
  have hsingle : runLoop genv.perCode (normalizeOutPath inp.outPathUser).1
      (networkTypeOf inp.netTypeIndex) inp.bufferM codes.length (1 + i)
      [codes.get ⟨i, hi⟩] =
      ((processOne (1 + i) codes.length (codes.get ⟨i, hi⟩)
          (genv.perCode (codes.get ⟨i, hi⟩)) (normalizeOutPath inp.outPathUser).1
          (networkTypeOf inp.netTypeIndex) inp.bufferM).1,
       (processOne (1 + i) codes.length (codes.get ⟨i, hi⟩)
          (genv.perCode (codes.get ⟨i, hi⟩)) (normalizeOutPath inp.outPathUser).1
          (networkTypeOf inp.netTypeIndex) inp.bufferM).2.1.toList,
       Except.error m) := by
    have hm2 := hm
    simp only [List.get_eq_getElem] at hm2
    simp [runLoop, hm2]
  have hlr : runLoop genv.perCode (normalizeOutPath inp.outPathUser).1
      (networkTypeOf inp.netTypeIndex) inp.bufferM codes.length 1 codes =
      runLoop genv.perCode (normalizeOutPath inp.outPathUser).1
        (networkTypeOf inp.netTypeIndex) inp.bufferM codes.length 1
        (codes.take i ++ [codes.get ⟨i, hi⟩]) := by
    rw [hhalt, htake]
  have hcr : (runLoop genv.perCode (normalizeOutPath inp.outPathUser).1
      (networkTypeOf inp.netTypeIndex) inp.bufferM codes.length 1 codes).2.1 =
      (codes.take i).map layerNameOf ++
        (processOne (1 + i) codes.length (codes.get ⟨i, hi⟩)
          (genv.perCode (codes.get ⟨i, hi⟩)) (normalizeOutPath inp.outPathUser).1
          (networkTypeOf inp.netTypeIndex) inp.bufferM).2.1.toList := by
    rw [hlr, happ, hlen, hsingle]
  have h22 : (runLoop genv.perCode (normalizeOutPath inp.outPathUser).1
      (networkTypeOf inp.netTypeIndex) inp.bufferM codes.length 1 codes).2.2 =
      Except.error m := by
    rw [hlr, happ, hlen, hsingle]
  have halg : processAlgorithm inp genv =
      (preTrace inp codes ++
         (runLoop genv.perCode (normalizeOutPath inp.outPathUser).1
           (networkTypeOf inp.netTypeIndex) inp.bufferM codes.length 1 codes).1,
       (runLoop genv.perCode (normalizeOutPath inp.outPathUser).1
         (networkTypeOf inp.netTypeIndex) inp.bufferM codes.length 1 codes).2.1,
       Except.error m) := by
    simp [processAlgorithm, ← hc, hne, hox, hgpd, h22]
  refine ⟨⟨m, by rw [halg]⟩, ?_, ?_⟩
  · rcases processOne_created (1 + i) codes.length (codes.get ⟨i, hi⟩)
      (genv.perCode (codes.get ⟨i, hi⟩)) (normalizeOutPath inp.outPathUser).1
      (networkTypeOf inp.netTypeIndex) inp.bufferM with hnone | hsome
    · left
      rw [halg]
      simp only [hcr, hnone, Option.toList_none, List.append_nil]
    · right
      rw [halg]
      simp only [hcr, hsome, Option.toList_some]
  · intro j hj hij hmem
    rw [halg] at hmem
    rcases List.mem_append.mp hmem with hpre | hloop
    · exact preTrace_no_httpGet inp codes _ hpre
    · rw [hhalt] at hloop
      obtain ⟨c, hcmem, hurl⟩ := runLoop_httpGet genv.perCode
        (normalizeOutPath inp.outPathUser).1 (networkTypeOf inp.netTypeIndex)
        inp.bufferM codes.length (codes.take (i + 1)) 1 _ hloop
      have hceq : codes.get ⟨j, hj⟩ = c := ibgeUrl_inj _ _ hurl
      rw [← hceq] at hcmem
      exact get_not_mem_take codes hnd (i + 1) j hj (by omega) hcmem

/-- C3 witness: two codes, the second failing with a 404; the run errors. -/
theorem claim_C3_witness :
    ∃ m, (processAlgorithm ⟨"4305108, 3550308", "saida.gpkg", 0, 0⟩ mixedGlobalEnv).2.2 =
      Except.error m :=
  (claim_C3 ⟨"4305108, 3550308", "saida.gpkg", 0, 0⟩ mixedGlobalEnv
    (parseMunicipalityCodes "4305108, 3550308") rfl rfl rfl 1 (by decide)
    (by decide) (by decide)).1

/-! ## Claim C6 (status: confirmed) -/

/-- C6: with a positive buffer distance, an exception in the buffer
computation (both the `project_gdf` path and the Web-Mercator fallback
raising) does not abort the iteration: a non-fatal warning is reported, the
network download is issued with the UNBUFFERED boundary geometry, and the
layer is still written and the iteration completes. -/
theorem claim_C6 (idx total : Nat) (code : String) (e : MunEnv)
    (p nt : String) (b : Rat) (nome sigla : String) (gdf : GeoDataFrame) (em : String)
    (hb : 0 < b)
    (hreg : registryStep code e.registry = Except.ok (nome, sigla))
    (hgeo : e.geocode = Except.ok gdf)
    (hemp : gdf.isEmpty = false)
    (hbuf : bufResult e = Except.error em)
    (hdl : isOkE e.graphDl = true)
    (hpj : isOkE e.projGraph = true)
    (htg : isOkE e.toGdfs = true)
    (htf : isOkE e.toFile = true)
    (hlv : e.layerValid = true) :
    (processOne idx total code e p nt b).2.2 = Except.ok () ∧
    (processOne idx total code e p nt b).2.1 = some (layerNameOf code) ∧
    Event.warning (bufferWarnMsg (placeQueryStr nome sigla) em) ∈
      (processOne idx total code e p nt b).1 ∧
    Event.graphDownload gdf.firstGeom nt ∈ (processOne idx total code e p nt b).1 ∧
    ∃ crs, Event.layerWrite p (layerNameOf code) crs ∈
      (processOne idx total code e p nt b).1 := by
  rcases hdl' : e.graphDl with m1 | g1
  · rw [hdl'] at hdl; simp [isOkE] at hdl
  rcases hpj' : e.projGraph with m2 | g2
  · rw [hpj'] at hpj; simp [isOkE] at hpj
  rcases htg' : e.toGdfs with m3 | ed
  · rw [htg'] at htg; simp [isOkE] at htg
  rcases htf' : e.toFile with m4 | u4
  · rw [htf'] at htf; simp [isOkE] at htf
  cases u4
  refine ⟨?_, ?_, ?_, ?_, ⟨(crsStep e ed).1.crs, ?_⟩⟩ <;>
    simp [processOne, hreg, hgeo, hemp, hdl', hpj', htg', htf', hlv,
      bufferStep, hb, hbuf, layerNameOf]

/-- C6 witness: the buffer-failure oracle at buffer distance one metre. -/
theorem claim_C6_witness :
    (processOne 1 1 "4305108" bufFailEnv "saida.gpkg" "drive" 1).2.2 = Except.ok () ∧
    Event.warning (bufferWarnMsg (placeQueryStr "Porto Alegre" "RS") "mercator") ∈
      (processOne 1 1 "4305108" bufFailEnv "saida.gpkg" "drive" 1).1 := by
  have h := claim_C6 1 1 "4305108" bufFailEnv "saida.gpkg" "drive" 1 "Porto Alegre" "RS"
    ⟨false, ⟨1⟩⟩ "mercator" (by decide) rfl rfl rfl rfl rfl rfl rfl rfl rfl
  exact ⟨h.1, h.2.2.1⟩

/-! ## Claim C10 (status: confirmed) -/

/-- C10: a failure while stripping the CRS tag from the edge table is
non-fatal: a warning is reported and the write to the output package
proceeds anyway, with the CRS tag still present on the written table, and
the iteration completes. -/
theorem claim_C10 (idx total : Nat) (code : String) (e : MunEnv)
    (p nt : String) (b : Rat) (nome sigla : String) (gdf : GeoDataFrame)
    (ed : EdgeTable) (c : String)
    (hreg : registryStep code e.registry = Except.ok (nome, sigla))
    (hgeo : e.geocode = Except.ok gdf)
    (hemp : gdf.isEmpty = false)
    (hdl : isOkE e.graphDl = true)
    (hpj : isOkE e.projGraph = true)
    (htg : e.toGdfs = Except.ok ed)
    (hcrs : ed.crs = some c)
    (hfailcrs : e.setCrsFails = true)
    (htf : isOkE e.toFile = true)
    (hlv : e.layerValid = true) :
    (processOne idx total code e p nt b).2.2 = Except.ok () ∧
    Event.warning (crsFailMsg e.setCrsErrMsg) ∈ (processOne idx total code e p nt b).1 ∧
    Event.layerWrite p (layerNameOf code) (some c) ∈
      (processOne idx total code e p nt b).1 := by
  rcases hdl' : e.graphDl with m1 | g1
  · rw [hdl'] at hdl; simp [isOkE] at hdl
  rcases hpj' : e.projGraph with m2 | g2
  · rw [hpj'] at hpj; simp [isOkE] at hpj
  rcases htf' : e.toFile with m4 | u4
  · rw [htf'] at htf; simp [isOkE] at htf
  cases u4
  refine ⟨?_, ?_, ?_⟩ <;>
    simp [processOne, hreg, hgeo, hemp, hdl', hpj', htg, htf', hlv,
      crsStep, hcrs, hfailcrs, layerNameOf]

/-- C10 witness: the `set_crs`-failure oracle; the layer write still
happens and carries the original CRS tag. -/
theorem claim_C10_witness :
    (processOne 1 1 "4305108" crsFailEnv "saida.gpkg" "drive" 0).2.2 = Except.ok () ∧
    Event.layerWrite "saida.gpkg" (layerNameOf "4305108") (some "EPSG:31982") ∈
      (processOne 1 1 "4305108" crsFailEnv "saida.gpkg" "drive" 0).1 := by
  have h := claim_C10 1 1 "4305108" crsFailEnv "saida.gpkg" "drive" 0 "Porto Alegre" "RS"
    ⟨false, ⟨1⟩⟩ ⟨some "EPSG:31982", 100⟩ "EPSG:31982" rfl rfl rfl rfl rfl rfl rfl rfl rfl rfl
  exact ⟨h.1, h.2.2⟩

/-! ## Claim C2 (status: code_bug) -/

/-- C2: the claim's own example parses as stated, but space is NOT an
equivalent delimiter: the parser only rewrites `;`, newline and tab to
commas, so two codes separated by a bare space are concatenated into a
single digit token.  This contradicts the function's docstring and the
parameter help text, which both list space as an accepted separator. -/
theorem claim_C2_eval :
    parseMunicipalityCodes "4305108; 4305108, 3550308" = ["4305108", "3550308"] ∧
    parseMunicipalityCodes "4305108 3550308" = ["43051083550308"] := by
  decide

/-! ## Claim C4 (status: corrected) -/

/-- C4 counterexample: for the malformed-JSON failure the raised message is
the fixed string `jsonErrMsg`, which does not name the offending code
4305108 — refuting the claim that the error message names the code in
every fatal registry case. -/
theorem claim_C4_counterexample :
    registryStep "4305108" (RegistryResult.httpResp 200 (Except.error ())) =
      Except.error jsonErrMsg ∧
    strContains jsonErrMsg "4305108" = false :=
  ⟨rfl, by decide⟩

/-- C4 (amended): the registry lookup fails fatally in exactly the five
claimed cases — connection failure, non-200 status, malformed JSON, empty
list, missing nested fields — and the error message names the offending
code in the non-200, empty-list and unexpected-shape cases; the
connection-failure message carries only the underlying exception text and
the malformed-JSON message is a fixed string, so neither names the code in
general. -/
theorem claim_C4 (code m det : String) (st : Nat) (nome? : Option String)
    (micro? : Option MicroObj) (rest : List IbgeJson) :
    (∀ r, isOkE (registryStep code r) = registryOk r) ∧
    (registryStep code (RegistryResult.connError m) = Except.error (connErrMsg m)) ∧
    (st ≠ 200 → ∀ body, registryStep code (RegistryResult.httpResp st body) =
      Except.error (statusErrMsg st code)) ∧
    (registryStep code (RegistryResult.httpResp 200 (Except.error ())) =
      Except.error jsonErrMsg) ∧
    (registryStep code (RegistryResult.httpResp 200 (Except.ok (IbgeJson.jlist []))) =
      Except.error (emptyListMsg code)) ∧
    (readFields (IbgeJson.jobj nome? micro?) = Except.error det →
      registryStep code (RegistryResult.httpResp 200 (Except.ok (IbgeJson.jobj nome? micro?))) =
        Except.error (shapeErrMsg code det) ∧
      registryStep code
          (RegistryResult.httpResp 200 (Except.ok (IbgeJson.jlist (IbgeJson.jobj nome? micro? :: rest)))) =
        Except.error (shapeErrMsg code det)) ∧
    strContains (statusErrMsg st code) code = true ∧
    strContains (emptyListMsg code) code = true ∧
    strContains (shapeErrMsg code det) code = true := by
  refine ⟨fun r => registryStep_isOk code r, rfl, ?_, rfl, rfl, ?_, ?_, ?_, ?_⟩
  · intro hst body
    simp [registryStep, hst]
  · intro hrf
    constructor <;> simp [registryStep, interpretObj, hrf]
  · unfold statusErrMsg
    apply strContains_append_right
    apply strContains_append_left
    exact strContains_refl code
  · unfold emptyListMsg
    apply strContains_append_right
    apply strContains_append_left
    exact strContains_refl code
  · unfold shapeErrMsg
    apply strContains_append_right
    apply strContains_append_right
    apply strContains_append_left
    exact strContains_refl code

/-- C4 witness: the amended theorem applied at code 4305108 and a 404
response. -/
theorem claim_C4_witness :
    registryStep "4305108" (RegistryResult.httpResp 404 (Except.error ())) =
      Except.error (statusErrMsg 404 "4305108") ∧
    strContains (statusErrMsg 404 "4305108") "4305108" = true := by
  have h := claim_C4 "4305108" "" "" 404 none none []
  exact ⟨h.2.2.1 (by decide) (Except.error ()), h.2.2.2.2.2.2.1⟩

/-! ## Claim C5 (status: corrected) -/

/-- C5 counterexample: the user path `out.GPKG` is kept verbatim (its
extension already lowercases to `.gpkg`), so the normalized path does not
end in the literal extension `.gpkg`. -/
theorem claim_C5_counterexample :
    normalizeOutPath "out.GPKG" = ("out.GPKG", []) ∧
    strEndsWith "out.GPKG" ".gpkg" = false := by
  decide

/-- C5 (amended): for every user path the normalizer yields
`base ++ ext` where the extension lowercases to `.gpkg` (the user's own
casing of a GeoPackage extension is preserved; every other extension,
including a missing one, is replaced by the literal `.gpkg`), it never
fails, and when the user's extension was the single-layer Shapefile
format it emits a visible `reportError` warning explaining the
substitution. -/
theorem claim_C5 (p : String) :
    (∃ base ext, (normalizeOutPath p).1 = base ++ ext ∧ lowerStr ext = ".gpkg") ∧
    (lowerStr (splitext p).2 = ".shp" →
      Event.warning (shpWarnMsg (splitext p).1) ∈ (normalizeOutPath p).2) := by
  have hgg : lowerStr ".gpkg" = ".gpkg" := by decide
  have hgs : ¬lowerStr ".gpkg" = ".shp" := by decide
  by_cases h1 : (splitext p).2 = ""
  · refine ⟨⟨(splitext p).1, ".gpkg", ?_, by decide⟩, ?_⟩
    · simp [normalizeOutPath, h1, hgg, hgs]
    · intro hshp
      rw [h1] at hshp
      exact absurd hshp (by decide)
  · by_cases h2 : lowerStr (splitext p).2 = ".shp"
    · refine ⟨⟨(splitext p).1, ".gpkg", ?_, by decide⟩, ?_⟩
      · simp [normalizeOutPath, h1, h2, hgg]
      · intro _
        simp [normalizeOutPath, h1, h2, hgg]
    · by_cases h3 : lowerStr (splitext p).2 = ".gpkg"
      · refine ⟨⟨(splitext p).1, (splitext p).2, ?_, h3⟩, fun hshp => absurd hshp h2⟩
        simp [normalizeOutPath, h1, h2, h3]
      · refine ⟨⟨(splitext p).1, ".gpkg", ?_, by decide⟩, fun hshp => absurd hshp h2⟩
        simp [normalizeOutPath, h1, h2, h3]

/-- C5 witness: a Shapefile output path gets the substitution warning. -/
theorem claim_C5_witness :
    Event.warning (shpWarnMsg "out") ∈ (normalizeOutPath "out.shp").2 :=
  (claim_C5 "out.shp").2 (by decide)

/-! ## Claim C7 (status: confirmed) -/

/-- C7: when the input string parses to no codes, the run raises the
user-facing "at least one code" failure with an empty effect trace — in
particular before any HTTP request is made. -/
theorem claim_C7 (inp : AlgInput) (genv : GlobalEnv)
    (h : parseMunicipalityCodes inp.munCodesStr = []) :
    processAlgorithm inp genv = ([], [], Except.error noCodesMsg) ∧
    ∀ u, Event.httpGet u ∉ (processAlgorithm inp genv).1 := by
  refine ⟨by simp [processAlgorithm, h], fun u => ?_⟩
  simp [processAlgorithm, h]

/-- C7 witness: an all-letters input parses to no codes and aborts the run
up front. -/
theorem claim_C7_witness :
    processAlgorithm ⟨"abc", "out.gpkg", 0, 0⟩ okGlobalEnv =
      ([], [], Except.error noCodesMsg) :=
  (claim_C7 ⟨"abc", "out.gpkg", 0, 0⟩ okGlobalEnv (by decide)).1

/-! ## Claim C8 (status: confirmed) -/

/-- C8: a successful registry response is accepted in both shapes — a
single object, or a non-empty list whose first element is taken — and the
place name and region abbreviation are read from `nome` and the nested
`microrregiao.mesorregiao.UF.sigla` chain; the OSMnx query string is
`"<name>, <region>, Brasil"`. -/
theorem claim_C8 (code nome sigla : String) (rest : List IbgeJson) :
    registryStep code (RegistryResult.httpResp 200
        (Except.ok (IbgeJson.jobj (some nome) (some ⟨some ⟨some ⟨some sigla⟩⟩⟩)))) =
      Except.ok (nome, sigla) ∧
    registryStep code (RegistryResult.httpResp 200
        (Except.ok (IbgeJson.jlist
          (IbgeJson.jobj (some nome) (some ⟨some ⟨some ⟨some sigla⟩⟩⟩) :: rest)))) =
      Except.ok (nome, sigla) ∧
    placeQueryStr nome sigla = nome ++ ", " ++ sigla ++ ", Brasil" := by
  refine ⟨?_, ?_, rfl⟩ <;> simp [registryStep, interpretObj, readFields]

/-! ## Claim C9 (status: confirmed) -/

/-- C9: indexing the fixed network-type option list never faults — an
out-of-range enum index (negative or at least five) is silently replaced
by index 0, so the network type falls back to `"drive"`, and the selected
type is always one of the five options. -/
theorem claim_C9 (i : Int) :
    ((i < 0 ∨ (NET_TYPE_OPTIONS.length : Int) ≤ i) → networkTypeOf i = "drive") ∧
    networkTypeOf i ∈ NET_TYPE_OPTIONS := by
  constructor
  · intro h
    simp [networkTypeOf, clampNetTypeIndex, h]
    rfl
  · by_cases h : i < 0 ∨ (NET_TYPE_OPTIONS.length : Int) ≤ i
    · simp [networkTypeOf, clampNetTypeIndex, h]
      decide
    · push_neg at h
      obtain ⟨h0, h5⟩ := h
      have h5' : i < 5 := by simpa [NET_TYPE_OPTIONS] using h5
      have : i = 0 ∨ i = 1 ∨ i = 2 ∨ i = 3 ∨ i = 4 := by omega
      rcases this with rfl | rfl | rfl | rfl | rfl <;> decide

/-- C9 witness: the out-of-range index −3 falls back to `"drive"`. -/
theorem claim_C9_witness : networkTypeOf (-3) = "drive" :=
  (claim_C9 (-3)).1 (by decide)

end OsmnxMunicipio
